import Mathlib

/-!
Verification of the RESP codec, keyed store, command dispatcher and replica
handshake of a small Redis-like server written in Rust (src/main.rs, with
duplicated codec/command modules in src/protocol.rs and src/commands.rs).

Strings are modelled as lists of characters; `.len()` on Rust strings is the
UTF-8 byte length, modelled by `utf8Len`.  Rust panics (from `unwrap`,
`assert_eq!`, indexing and `todo!`) are modelled as a distinct `fatal`
outcome, recoverable `anyhow` errors as `err`.  `Instant` is modelled as a
natural number of elapsed milliseconds.
-/

/-- UTF-8 byte size of one character, as Rust computes for char::len_utf8. -/
def charUtf8Size (c : Char) : Nat :=
  if c.toNat < 0x80 then 1
  else if c.toNat < 0x800 then 2
  else if c.toNat < 0x10000 then 3
  else 4

/-- UTF-8 byte length of a string given as a character list (Rust str::len). -/
def utf8Len (l : List Char) : Nat := (l.map charUtf8Size).sum

/-- Rust char::is_whitespace: the Unicode White_Space property. -/
def isRustWs (c : Char) : Bool :=
  let n := c.toNat
  (9 ≤ n && n ≤ 13) || n = 32 || n = 0x85 || n = 0xA0 || n = 0x1680 ||
  (0x2000 ≤ n && n ≤ 0x200A) || n = 0x2028 || n = 0x2029 || n = 0x202F ||
  n = 0x205F || n = 0x3000

/-- Rust str::trim_end: remove trailing whitespace characters. -/
def trimEnd (l : List Char) : List Char := (l.reverse.dropWhile isRustWs).reverse

/-- Decimal digit characters, used to render lengths in wire headers. -/
def digitChar : Nat → Char
  | 0 => '0' | 1 => '1' | 2 => '2' | 3 => '3' | 4 => '4'
  | 5 => '5' | 6 => '6' | 7 => '7' | 8 => '8' | 9 => '9'
  | _ => '*'

/-- Fueled accumulator loop rendering a natural number in decimal,
most significant digit first (Rust's Display for unsigned integers). -/
def natDigitsAux : Nat → Nat → List Char → List Char
  | 0, _, acc => acc
  | fuel + 1, n, acc =>
    if n < 10 then digitChar (n % 10) :: acc
    else natDigitsAux fuel (n / 10) (digitChar (n % 10) :: acc)

/-- Decimal rendering of a natural number (Rust format of a usize/u32). -/
def natDigits (n : Nat) : List Char := natDigitsAux (n + 1) n []

/-- Value of a decimal digit character, none for any other character. -/
def digitVal (c : Char) : Option Nat :=
  if c = '0' then some 0 else if c = '1' then some 1 else if c = '2' then some 2
  else if c = '3' then some 3 else if c = '4' then some 4 else if c = '5' then some 5
  else if c = '6' then some 6 else if c = '7' then some 7 else if c = '8' then some 8
  else if c = '9' then some 9 else none

/-- Accumulating decimal parse of a digit sequence; none on a non-digit. -/
def parseDigitsAux : List Char → Nat → Option Nat
  | [], acc => some acc
  | c :: cs, acc =>
    match digitVal c with
    | some d => parseDigitsAux cs (acc * 10 + d)
    | none => none

/-- Parse a nonempty all-digit sequence as a natural number. -/
def parseDigits (l : List Char) : Option Nat :=
  match l with
  | [] => none
  | _ :: _ => parseDigitsAux l 0

/-- Strip one optional leading plus sign (Rust unsigned FromStr). -/
def stripPlus : List Char → List Char
  | [] => []
  | c :: rest => if c = '+' then rest else c :: rest

/-- Rust str::parse::<usize> (also u64): optional plus sign, decimal digits,
overflow is an error. -/
def parseUsize (l : List Char) : Option Nat :=
  match parseDigits (stripPlus l) with
  | some n => if n < 2 ^ 64 then some n else none
  | none => none

/-- Rust str::parse::<i64>: optional sign, decimal digits, range checked. -/
def parseI64 (l : List Char) : Option Int :=
  match l with
  | [] => none
  | c :: rest =>
    if c = '+' then
      match parseDigits rest with
      | some n => if n ≤ 2 ^ 63 - 1 then some (n : Int) else none
      | none => none
    else if c = '-' then
      match parseDigits rest with
      | some n => if n ≤ 2 ^ 63 then some (-(n : Int)) else none
      | none => none
    else
      match parseDigits (c :: rest) with
      | some n => if n ≤ 2 ^ 63 - 1 then some (n : Int) else none
      | none => none

/-- The RESP frame type of the source (enum DataType in main.rs). -/
inductive DataType
  | SimpleString (s : List Char)
  | SimpleError (s : List Char)
  | Integer (i : Int)
  | BulkString (s : List Char)
  | Array (elems : List DataType)

/-- BufReader::read_line: consume up to and including the first newline,
or the whole remaining input when no newline is present. -/
def readLine : List Char → List Char × List Char
  | [] => ([], [])
  | c :: cs =>
    if c = '\n' then ([c], cs)
    else
      let p := readLine cs
      (c :: p.1, p.2)

/-- One iteration of the parse_data_type loop body: read one header line and
either produce a complete frame, open an array, or stop with a recoverable
error (anyhow bail / context) or a fatal abort (unwrap or assert panic). -/
inductive Step
  | frame (dt : DataType) (rest : List Char)
  | startArray (n : Nat) (rest : List Char)
  | err
  | fatal

/-- The body of one iteration of parse_data_type (main.rs:313-350):
dispatch on the type byte of one line read from the stream. -/
def parseLine (input : List Char) : Step :=
  let p := readLine input
  match p.1 with
  | [] => .err
  | c :: tail =>
    if c = '+' then .frame (.SimpleString (trimEnd tail)) p.2
    else if c = '-' then .frame (.SimpleError (trimEnd tail)) p.2
    else if c = ':' then
      match parseI64 (trimEnd tail) with
      | some v => .frame (.Integer v) p.2
      | none => .err
    else if c = '$' then
      match parseUsize (tail.takeWhile (fun ch => ch != '\r')) with
      | none => .fatal
      | some length =>
        let q := readLine p.2
        let data := trimEnd q.1
        if utf8Len data = length then .frame (.BulkString data) q.2
        else .fatal
    else if c = '*' then
      match parseUsize (tail.takeWhile (fun ch => ch != '\r')) with
      | none => .fatal
      | some n => if 0 < n then .startArray n p.2 else .frame (.Array []) p.2
    else .err

/-- Result of decoding one frame: the frame plus unconsumed input, a
recoverable decode error, or a fatal abort (panic). -/
inductive ParseResult
  | ok (dt : DataType) (rest : List Char)
  | err
  | fatal

/-- The parse_data_type loop (main.rs:310-360) with the current_array
accumulator made explicit; fueled so that it is structurally recursive.
Each iteration consumes at least one character, so fuel exceeding the input
length never runs out. -/
def parseLoopF : Nat → List Char → Option (List DataType × Nat) → ParseResult
  | 0, _, _ => .err
  | fuel + 1, input, cur =>
    match parseLine input with
    | .err => .err
    | .fatal => .fatal
    | .startArray n rest => parseLoopF fuel rest (some ([], n))
    | .frame dt rest =>
      match cur with
      | none => .ok dt rest
      | some (arr, n) =>
        if (arr ++ [dt]).length = n then .ok (.Array (arr ++ [dt])) rest
        else parseLoopF fuel rest (some (arr ++ [dt], n))

/-- parse_data_type: decode exactly one frame from the front of the input. -/
def parse_data_type (input : List Char) : ParseResult :=
  parseLoopF (input.length + 1) input none

/-- send_simple_string (main.rs:275-280): wire bytes of a simple string. -/
def send_simple_string (msg : List Char) : List Char := '+' :: msg ++ ['\r', '\n']

/-- send_bulk_string (main.rs:282-287): wire bytes of a bulk string, with its
UTF-8 byte length in the header. -/
def send_bulk_string (msg : List Char) : List Char :=
  '$' :: natDigits (utf8Len msg) ++ ['\r', '\n'] ++ msg ++ ['\r', '\n']

/-- send_null (main.rs:289-294): wire bytes of the null bulk string. -/
def send_null : List Char := ['$', '-', '1', '\r', '\n']

/-- Serialize array elements; only bulk strings are supported and any other
element shape is a recoverable error (main.rs:301-307). -/
def sendElems : List DataType → Option (List Char)
  | [] => some []
  | .BulkString bs :: rest =>
    match sendElems rest with
    | some tailBytes => some (send_bulk_string bs ++ tailBytes)
    | none => none
  | _ :: _ => none

/-- send_array (main.rs:296-308): wire bytes of an array whose elements must
all be bulk strings. -/
def send_array (data : List DataType) : Option (List Char) :=
  match sendElems data with
  | some body => some ('*' :: natDigits data.length ++ ['\r', '\n'] ++ body)
  | none => none

/-- StoreValue (main.rs:101-105): a stored value with optional expiry. -/
structure StoreValue where
  value : List Char
  expiry : Option Nat
deriving DecidableEq

/-- The shared store: a mapping from key to stored value. -/
def Store : Type := List Char → Option StoreValue

/-- The store with no entries. -/
def emptyStore : Store := fun _ => none

/-- HashMap::insert: overwrite the entry for one key. -/
def storeInsert (store : Store) (k : List Char) (v : StoreValue) : Store :=
  fun k2 => if k2 = k then some v else store k2

/-- ReplicaOf (main.rs:19-23). -/
structure ReplicaOf where
  master_host : List Char
  master_port : Nat

/-- Config (main.rs:25-31). -/
structure Config where
  port : List Char
  replica_of : Option ReplicaOf
  replication_id : List Char
  replication_offset : Nat

/-- The Default Config of main.rs:33-42. -/
def defaultConfig : Config :=
  { port := "6379".data
  , replica_of := none
  , replication_id := "8371b4fb1155b71f4a04d3e1bc3e18c4a990aeeb".data
  , replication_offset := 0 }

/-- Result of one command handler that does not modify the store: the reply
bytes written, a recoverable error (connection-fatal bail), or a panic. -/
inductive InvokeResult
  | reply (bytes : List Char)
  | err
  | fatal

/-- invoke_set (main.rs:196-223): key and value must be bulk strings; a third
bulk-string argument equal to "px" demands a parseable millisecond count and
sets expiry now + millis; any other third argument is ignored.  Returns the
updated store and the reply bytes, or none for a bail. -/
def invoke_set (arr : List DataType) (now : Nat) (store : Store) :
    Option (Store × List Char) :=
  match arr.drop 1 with
  | DataType.BulkString k :: DataType.BulkString v :: restArgs =>
    let expiryOpt : Option (Option Nat) :=
      match restArgs with
      | DataType.BulkString arg :: rest2 =>
        if arg = "px".data then
          match rest2 with
          | DataType.BulkString millisStr :: _ =>
            match parseUsize millisStr with
            | some millis => some (some (now + millis))
            | none => none
          | _ => none
        else some none
      | _ => some none
    match expiryOpt with
    | none => none
    | some e =>
      some (storeInsert store k { value := v, expiry := e },
            send_simple_string "OK".data)
  | _ => none

/-- invoke_get (main.rs:225-245): index 1 of the command array is the key
(indexing out of bounds is a panic); a present entry whose expiry is at or
before now yields the null reply, otherwise the value; a missing key yields
the null reply. -/
def invoke_get (arr : List DataType) (now : Nat) (store : Store) : InvokeResult :=
  match arr.get? 1 with
  | none => .fatal
  | some (DataType.BulkString k) =>
    match store k with
    | some v =>
      match v.expiry with
      | some expiry =>
        if expiry ≤ now then .reply send_null
        else .reply (send_bulk_string v.value)
      | none => .reply (send_bulk_string v.value)
    | none => .reply send_null
  | some _ => .err

/-- The replication section body produced by invoke_info. -/
def infoReplicationBody (config : Config) : List Char :=
  "role:".data ++
  (if config.replica_of.isNone then "master".data else "slave".data) ++
  "\r\nmaster_replid:".data ++ config.replication_id ++
  "\r\nmaster_repl_offset:".data ++ natDigits config.replication_offset

/-- invoke_info (main.rs:247-273): first argument must be a bulk string;
only the replication section is implemented, anything else hits todo. -/
def invoke_info (arr : List DataType) (config : Config) : InvokeResult :=
  match arr.drop 1 with
  | DataType.BulkString command :: _ =>
    if command = "replication".data then
      .reply (send_bulk_string (infoReplicationBody config))
    else .fatal
  | _ => .err

/-- Result of dispatching one decoded frame in the handle_connection loop:
a reply plus updated store, a silent continue (first array element is not a
bulk string), a connection-fatal error, or a panic. -/
inductive CommandResult
  | reply (bytes : List Char) (store : Store)
  | silentContinue (store : Store)
  | err
  | fatal

/-- The dispatch match of handle_connection (main.rs:169-192): the frame must
be an array, its first element names the command, and the name is matched
against the exact lowercase literals echo, ping, set, get, info; anything
else is a connection-fatal error. -/
def dispatch_frame (dt : DataType) (now : Nat) (store : Store) (config : Config) :
    CommandResult :=
  match dt with
  | DataType.Array arr =>
    match arr.get? 0 with
    | none => .err
    | some (DataType.BulkString command) =>
      if command = "echo".data then
        match arr.get? 1 with
        | none => .err
        | some (DataType.BulkString echoString) =>
          .reply (send_bulk_string echoString) store
        | some _ => .err
      else if command = "ping".data then
        .reply (send_simple_string "PONG".data) store
      else if command = "set".data then
        match invoke_set arr now store with
        | some (store2, bytes) => .reply bytes store2
        | none => .err
      else if command = "get".data then
        match invoke_get arr now store with
        | .reply b => .reply b store
        | .err => .err
        | .fatal => .fatal
      else if command = "info".data then
        match invoke_info arr config with
        | .reply b => .reply b store
        | .err => .err
        | .fatal => .fatal
      else .err
    | some _ => .silentContinue store
  | _ => .err

/-- Outcome of the replica handshake: normal return, anyhow error, or panic. -/
inductive HsOutcome
  | ok
  | err
  | fatal
deriving DecidableEq

/-- The first handshake request: PING as an array of one bulk string. -/
def hs_req1 : List Char := "*1\r\n$4\r\nping\r\n".data

/-- The second handshake request: REPLCONF listening-port with the own port. -/
def hs_req2 (port : List Char) : List Char :=
  "*3\r\n$8\r\nREPLCONF\r\n$14\r\nlistening-port\r\n".data ++ send_bulk_string port

/-- The third handshake request: REPLCONF capa psync2. -/
def hs_req3 : List Char := "*3\r\n$8\r\nREPLCONF\r\n$4\r\ncapa\r\n$6\r\npsync2\r\n".data

/-- The fourth handshake request: PSYNC ? -1. -/
def hs_req4 : List Char := "*3\r\n$5\r\nPSYNC\r\n$1\r\n?\r\n$2\r\n-1\r\n".data

/-- master_handshake (main.rs:107-159) against a primary whose reply stream is
the given input: returns the list of requests written in order together with
the outcome.  The PING, first REPLCONF and second REPLCONF replies are each
parsed and checked (a non-simple-string reply bails, wrong text is an assert
panic); the PSYNC request is sent last and the function returns without
reading any further reply. -/
def master_handshake (input : List Char) (port : List Char) :
    List (List Char) × HsOutcome :=
  match send_array [DataType.BulkString "ping".data] with
  | none => ([], .err)
  | some r1 =>
    match parse_data_type input with
    | .err => ([r1], .err)
    | .fatal => ([r1], .fatal)
    | .ok dt1 rest1 =>
      match dt1 with
      | DataType.SimpleString s1 =>
        if s1 = "PONG".data then
          match send_array [DataType.BulkString "REPLCONF".data,
                            DataType.BulkString "listening-port".data,
                            DataType.BulkString port] with
          | none => ([r1], .err)
          | some r2 =>
            match parse_data_type rest1 with
            | .err => ([r1, r2], .err)
            | .fatal => ([r1, r2], .fatal)
            | .ok dt2 rest2 =>
              match dt2 with
              | DataType.SimpleString s2 =>
                if s2 = "OK".data then
                  match send_array [DataType.BulkString "REPLCONF".data,
                                    DataType.BulkString "capa".data,
                                    DataType.BulkString "psync2".data] with
                  | none => ([r1, r2], .err)
                  | some r3 =>
                    match parse_data_type rest2 with
                    | .err => ([r1, r2, r3], .err)
                    | .fatal => ([r1, r2, r3], .fatal)
                    | .ok dt3 _ =>
                      match dt3 with
                      | DataType.SimpleString s3 =>
                        if s3 = "OK".data then
                          match send_array [DataType.BulkString "PSYNC".data,
                                            DataType.BulkString "?".data,
                                            DataType.BulkString "-1".data] with
                          | none => ([r1, r2, r3], .err)
                          | some r4 => ([r1, r2, r3, r4], .ok)
                        else ([r1, r2, r3], .fatal)
                      | _ => ([r1, r2, r3], .err)
                else ([r1, r2], .fatal)
              | _ => ([r1, r2], .err)
        else ([r1], .fatal)
      | _ => ([r1], .err)

/-- The first three handshake replies decode, in sequence, to the simple
strings PONG, OK and OK. -/
def repliesOk3 (input : List Char) : Prop :=
  ∃ rest1 rest2 rest3,
    parse_data_type input = .ok (.SimpleString "PONG".data) rest1 ∧
    parse_data_type rest1 = .ok (.SimpleString "OK".data) rest2 ∧
    parse_data_type rest2 = .ok (.SimpleString "OK".data) rest3

/-- A frame none of whose decoded simple-string or bulk-string payloads ends
in a whitespace character, recursively through arrays. -/
inductive NoTrailWs : DataType → Prop
  | simple (s : List Char) (h : ∀ c, s.getLast? = some c → isRustWs c = false) :
      NoTrailWs (.SimpleString s)
  | simpleErr (s : List Char) : NoTrailWs (.SimpleError s)
  | int (i : Int) : NoTrailWs (.Integer i)
  | bulk (s : List Char) (h : ∀ c, s.getLast? = some c → isRustWs c = false) :
      NoTrailWs (.BulkString s)
  | arr (l : List DataType) (h : ∀ d ∈ l, NoTrailWs d) : NoTrailWs (.Array l)

/-! ### Lemmas about readLine -/

theorem readLine_split (xs rest : List Char) (h : '\n' ∉ xs) :
    readLine (xs ++ '\n' :: rest) = (xs ++ ['\n'], rest) := by
  induction xs with
  | nil => simp [readLine]
  | cons c cs ih =>
    have hc : c ≠ '\n' := fun hc => h (hc ▸ List.mem_cons_self c cs)
    have hcs : '\n' ∉ cs := fun hm => h (List.mem_cons_of_mem _ hm)
    simp [readLine, hc, ih hcs]

theorem readLine_append (l : List Char) : (readLine l).1 ++ (readLine l).2 = l := by
  induction l with
  | nil => simp [readLine]
  | cons c cs ih => by_cases hc : c = '\n' <;> simp [readLine, hc, ih]

theorem readLine_fst_ne_nil (l : List Char) (h : l ≠ []) : (readLine l).1 ≠ [] := by
  cases l with
  | nil => exact absurd rfl h
  | cons c cs => by_cases hc : c = '\n' <;> simp [readLine, hc]

theorem readLine_snd_lt (l : List Char) (h : l ≠ []) : (readLine l).2.length < l.length := by
  have h2 := readLine_append l
  have h3 := readLine_fst_ne_nil l h
  have h4 : (readLine l).1.length + (readLine l).2.length = l.length := by
    rw [← List.length_append, h2]
  have h5 : 0 < (readLine l).1.length := List.length_pos.mpr h3
  omega

/-! ### Lemmas about trimEnd and utf8Len -/

theorem trimEnd_append_ws (xs : List Char) (c : Char) (h : isRustWs c = true) :
    trimEnd (xs ++ [c]) = trimEnd xs := by
  simp [trimEnd, List.dropWhile_cons, h]

theorem trimEnd_crlf (xs : List Char) : trimEnd (xs ++ ['\r', '\n']) = trimEnd xs := by
  have h1 : xs ++ ['\r', '\n'] = (xs ++ ['\r']) ++ ['\n'] := by simp
  rw [h1, trimEnd_append_ws _ _ (by decide), trimEnd_append_ws _ _ (by decide)]

theorem head_dropWhile_false {p : Char → Bool} {l : List Char} {c : Char}
    (h : (List.dropWhile p l).head? = some c) : p c = false := by
  induction l with
  | nil => simp [List.dropWhile] at h
  | cons a t ih =>
    rw [List.dropWhile_cons] at h
    by_cases ha : p a = true
    · rw [if_pos ha] at h; exact ih h
    · rw [if_neg ha] at h
      simp at h
      rw [← h]
      simpa using ha

theorem trimEnd_getLast {s : List Char} {c : Char}
    (h : (trimEnd s).getLast? = some c) : isRustWs c = false := by
  have h2 : (trimEnd s).reverse.head? = some c := by
    rw [List.head?_reverse]; exact h
  rw [trimEnd, List.reverse_reverse] at h2
  exact head_dropWhile_false h2

theorem utf8Len_cons (c : Char) (t : List Char) :
    utf8Len (c :: t) = charUtf8Size c + utf8Len t := by
  simp [utf8Len]

theorem utf8Len_append (a b : List Char) : utf8Len (a ++ b) = utf8Len a + utf8Len b := by
  simp [utf8Len]

theorem utf8Len_reverse (a : List Char) : utf8Len a.reverse = utf8Len a := by
  simp [utf8Len, List.map_reverse, List.sum_reverse]

theorem charUtf8Size_pos (c : Char) : 0 < charUtf8Size c := by
  unfold charUtf8Size
  split
  · omega
  · split
    · omega
    · split <;> omega

theorem utf8Len_dropWhile_le (p : Char → Bool) (l : List Char) :
    utf8Len (l.dropWhile p) ≤ utf8Len l := by
  induction l with
  | nil => simp [List.dropWhile]
  | cons a t ih =>
    rw [List.dropWhile_cons]
    split
    · calc utf8Len (t.dropWhile p) ≤ utf8Len t := ih
        _ ≤ utf8Len (a :: t) := by rw [utf8Len_cons]; omega
    · exact le_refl _

theorem utf8Len_trimEnd_le (s : List Char) : utf8Len (trimEnd s) ≤ utf8Len s := by
  rw [trimEnd, utf8Len_reverse]
  calc utf8Len (s.reverse.dropWhile isRustWs) ≤ utf8Len s.reverse :=
        utf8Len_dropWhile_le _ _
    _ = utf8Len s := utf8Len_reverse s

theorem utf8Len_trimEnd_lt {s : List Char} {c : Char} (h1 : s.getLast? = some c)
    (h2 : isRustWs c = true) : utf8Len (trimEnd s) < utf8Len s := by
  have hrev : s.reverse.head? = some c := by rw [List.head?_reverse]; exact h1
  cases hr : s.reverse with
  | nil => rw [hr] at hrev; simp at hrev
  | cons a t =>
    rw [hr] at hrev
    simp at hrev
    rw [trimEnd, utf8Len_reverse, hr, List.dropWhile_cons, hrev, if_pos h2]
    have hle := utf8Len_dropWhile_le isRustWs t
    have hpos := charUtf8Size_pos c
    have hs : utf8Len s = charUtf8Size c + utf8Len t := by
      rw [← utf8Len_reverse s, hr, hrev, utf8Len_cons]
    omega

/-! ### Lemmas about decimal rendering and parsing -/

theorem natDigitsAux_eq (n : Nat) : ∀ fuel acc, n < fuel →
    natDigitsAux fuel n acc = natDigits n ++ acc := by
  induction n using Nat.strong_induction_on with
  | _ n ih =>
    intro fuel acc hf
    match fuel with
    | 0 => omega
    | f + 1 =>
      by_cases h10 : n < 10
      · simp [natDigitsAux, h10, natDigits]
      · have hdiv : n / 10 < n := Nat.div_lt_self (by omega) (by omega)
        have hN : natDigits n = natDigits (n / 10) ++ [digitChar (n % 10)] := by
          rw [natDigits]
        
          simp only [natDigitsAux, if_neg h10]
          rw [ih (n / 10) hdiv n _ (by omega)]
        simp only [natDigitsAux, if_neg h10]
        rw [ih (n / 10) hdiv f _ (by omega), hN]
        simp

theorem natDigits_lt10 (n : Nat) (h : n < 10) : natDigits n = [digitChar (n % 10)] := by
  rw [natDigits]
  simp [natDigitsAux, h]

theorem natDigits_ge10 (n : Nat) (h : ¬ n < 10) :
    natDigits n = natDigits (n / 10) ++ [digitChar (n % 10)] := by
  have hdiv : n / 10 < n := Nat.div_lt_self (by omega) (by omega)
  rw [natDigits]
  simp only [natDigitsAux, if_neg h]
  rw [natDigitsAux_eq (n / 10) n _ (by omega)]

theorem natDigits_ne_nil (n : Nat) : natDigits n ≠ [] := by
  by_cases h : n < 10
  · rw [natDigits_lt10 n h]; simp
  · rw [natDigits_ge10 n h]; simp

theorem digitChar_good (d : Nat) (h : d < 10) :
    digitVal (digitChar d) = some d ∧ digitChar d ≠ '\r' ∧ digitChar d ≠ '\n' ∧
    digitChar d ≠ '+' ∧ digitChar d ≠ '-' ∧ isRustWs (digitChar d) = false := by
  interval_cases d <;> exact ⟨rfl, by decide, by decide, by decide, by decide, by decide⟩

theorem natDigits_mem (n : Nat) : ∀ c ∈ natDigits n,
    (digitVal c).isSome ∧ c ≠ '\r' ∧ c ≠ '\n' ∧ c ≠ '+' ∧ c ≠ '-' ∧
    isRustWs c = false := by
  induction n using Nat.strong_induction_on with
  | _ n ih =>
    by_cases h : n < 10
    · rw [natDigits_lt10 n h]
      intro c hc
      simp at hc
      subst hc
      obtain ⟨h1, h2, h3, h4, h5, h6⟩ := digitChar_good (n % 10) (Nat.mod_lt _ (by omega))
      exact ⟨by rw [h1]; rfl, h2, h3, h4, h5, h6⟩
    · rw [natDigits_ge10 n h]
      intro c hc
      rcases List.mem_append.mp hc with h1 | h2
      · exact ih (n / 10) (Nat.div_lt_self (by omega) (by omega)) c h1
      · simp at h2
        subst h2
        obtain ⟨h1, h2, h3, h4, h5, h6⟩ := digitChar_good (n % 10) (Nat.mod_lt _ (by omega))
        exact ⟨by rw [h1]; rfl, h2, h3, h4, h5, h6⟩

theorem cr_not_mem_natDigits (n : Nat) : '\r' ∉ natDigits n := by
  intro hm; exact (natDigits_mem n '\r' hm).2.1 rfl

theorem nl_not_mem_natDigits (n : Nat) : '\n' ∉ natDigits n := by
  intro hm; exact (natDigits_mem n '\n' hm).2.2.1 rfl

theorem parseDigitsAux_append (xs ys : List Char) (acc : Nat) :
    parseDigitsAux (xs ++ ys) acc =
      match parseDigitsAux xs acc with
      | some v => parseDigitsAux ys v
      | none => none := by
  induction xs generalizing acc with
  | nil => simp [parseDigitsAux]
  | cons c t ih =>
    simp only [List.cons_append, parseDigitsAux]
    cases hd : digitVal c with
    | some d => simp [ih]
    | none => simp

theorem parseDigitsAux_natDigits (n : Nat) : ∀ acc,
    parseDigitsAux (natDigits n) acc = some (acc * 10 ^ (natDigits n).length + n) := by
  induction n using Nat.strong_induction_on with
  | _ n ih =>
    intro acc
    by_cases h : n < 10
    · rw [natDigits_lt10 n h]
      have hn : n % 10 = n := Nat.mod_eq_of_lt h
      have hv := (digitChar_good (n % 10) (Nat.mod_lt _ (by omega))).1
      rw [hn] at hv
      simp [parseDigitsAux, hv, hn]
    · have hdiv : n / 10 < n := Nat.div_lt_self (by omega) (by omega)
      rw [natDigits_ge10 n h, parseDigitsAux_append,
        ih (n / 10) hdiv acc]
      have hv := (digitChar_good (n % 10) (Nat.mod_lt _ (by omega))).1
      simp only [parseDigitsAux, hv]
      have hdm : 10 * (n / 10) + n % 10 = n := Nat.div_add_mod n 10
      have hlen : (natDigits (n / 10) ++ [digitChar (n % 10)]).length
          = (natDigits (n / 10)).length + 1 := by simp
      rw [hlen]
      congr 1
      have : (acc * 10 ^ (natDigits (n / 10)).length + n / 10) * 10 + n % 10
          = acc * 10 ^ ((natDigits (n / 10)).length + 1) + (10 * (n / 10) + n % 10) := by
        ring
      rw [this, hdm]

theorem parseDigits_natDigits (n : Nat) : parseDigits (natDigits n) = some n := by
  have h1 := parseDigitsAux_natDigits n 0
  cases hD : natDigits n with
  | nil => exact absurd hD (natDigits_ne_nil n)
  | cons c t =>
    rw [parseDigits]
    rw [← hD, h1]
    simp

theorem parseUsize_natDigits (n : Nat) (h : n < 2 ^ 64) :
    parseUsize (natDigits n) = some n := by
  have hsp : stripPlus (natDigits n) = natDigits n := by
    cases hD : natDigits n with
    | nil => exact absurd hD (natDigits_ne_nil n)
    | cons c t =>
      have hmem := natDigits_mem n c (hD ▸ List.mem_cons_self c t)
      rw [stripPlus, if_neg hmem.2.2.2.1]
  have h2 : n < 18446744073709551616 := by
    calc n < 2 ^ 64 := h
      _ = 18446744073709551616 := by norm_num
  rw [parseUsize, hsp, parseDigits_natDigits]
  simp [h2]

theorem takeWhile_append_cr (xs ys : List Char) (h : '\r' ∉ xs) :
    List.takeWhile (fun ch => ch != '\r') (xs ++ '\r' :: ys) = xs := by
  induction xs with
  | nil => simp
  | cons c t ih =>
    have hc : c ≠ '\r' := fun hc => h (hc ▸ List.mem_cons_self c t)
    have ht : '\r' ∉ t := fun hm => h (List.mem_cons_of_mem _ hm)
    simp [List.takeWhile_cons, hc, ih ht]

/-! ### Evaluating parseLine on encoded frames -/

theorem parseLine_simple (s body : List Char) (h : '\n' ∉ s) :
    parseLine (send_simple_string s ++ body) = .frame (.SimpleString (trimEnd s)) body := by
  have hx : '\n' ∉ '+' :: (s ++ ['\r']) := by
    intro hm
    rcases List.mem_cons.mp hm with h1 | h2
    · exact absurd h1 (by decide)
    · rcases List.mem_append.mp h2 with h3 | h4
      · exact h h3
      · simp at h4
  have hform : send_simple_string s ++ body = ('+' :: (s ++ ['\r'])) ++ '\n' :: body := by
    simp [send_simple_string]
  rw [hform]
  simp only [parseLine, readLine_split _ _ hx]
  have ht : ('+' :: (s ++ ['\r'])) ++ ['\n'] = '+' :: (s ++ ['\r', '\n']) := by simp
  rw [ht]
  simp [trimEnd_crlf]

theorem parseLine_bulk_any (n : Nat) (body : List Char) (hn : n < 2 ^ 64) :
    parseLine ('$' :: (natDigits n ++ ['\r', '\n'] ++ body)) =
      if utf8Len (trimEnd (readLine body).1) = n
      then Step.frame (.BulkString (trimEnd (readLine body).1)) (readLine body).2
      else Step.fatal := by
  have hx : '\n' ∉ '$' :: (natDigits n ++ ['\r']) := by
    intro hm
    rcases List.mem_cons.mp hm with h1 | h2
    · exact absurd h1 (by decide)
    · rcases List.mem_append.mp h2 with h3 | h4
      · exact nl_not_mem_natDigits n h3
      · simp at h4
  have hform : '$' :: (natDigits n ++ ['\r', '\n'] ++ body)
      = ('$' :: (natDigits n ++ ['\r'])) ++ '\n' :: body := by simp
  rw [hform]
  simp only [parseLine, readLine_split _ _ hx]
  have ht : ('$' :: (natDigits n ++ ['\r'])) ++ ['\n']
      = '$' :: (natDigits n ++ '\r' :: ['\n']) := by simp
  rw [ht]
  have htw : List.takeWhile (fun ch => ch != '\r') (natDigits n ++ '\r' :: ['\n'])
      = natDigits n := takeWhile_append_cr _ _ (cr_not_mem_natDigits n)
  simp [htw, parseUsize_natDigits n hn]

theorem parseLine_bulk (n : Nat) (payload rest : List Char) (hn : n < 2 ^ 64)
    (hp : '\n' ∉ payload) :
    parseLine ('$' :: (natDigits n ++ ['\r', '\n'] ++ (payload ++ ['\r', '\n'] ++ rest))) =
      if utf8Len (trimEnd payload) = n
      then Step.frame (.BulkString (trimEnd payload)) rest
      else Step.fatal := by
  have hxp : '\n' ∉ payload ++ ['\r'] := by
    intro hm
    rcases List.mem_append.mp hm with h3 | h4
    · exact hp h3
    · simp at h4
  have hb : payload ++ ['\r', '\n'] ++ rest = (payload ++ ['\r']) ++ '\n' :: rest := by simp
  rw [parseLine_bulk_any n _ hn, hb, readLine_split _ _ hxp]
  have hT : trimEnd ((payload ++ ['\r']) ++ ['\n']) = trimEnd payload := by
    have he : (payload ++ ['\r']) ++ ['\n'] = payload ++ ['\r', '\n'] := by simp
    rw [he, trimEnd_crlf]
  rw [hT]

theorem parseLine_array_header (n : Nat) (body : List Char) (hn : n < 2 ^ 64) :
    parseLine ('*' :: (natDigits n ++ ['\r', '\n'] ++ body)) =
      if 0 < n then Step.startArray n body else Step.frame (.Array []) body := by
  have hx : '\n' ∉ '*' :: (natDigits n ++ ['\r']) := by
    intro hm
    rcases List.mem_cons.mp hm with h1 | h2
    · exact absurd h1 (by decide)
    · rcases List.mem_append.mp h2 with h3 | h4
      · exact nl_not_mem_natDigits n h3
      · simp at h4
  have hform : '*' :: (natDigits n ++ ['\r', '\n'] ++ body)
      = ('*' :: (natDigits n ++ ['\r'])) ++ '\n' :: body := by simp
  rw [hform]
  simp only [parseLine, readLine_split _ _ hx]
  have ht : ('*' :: (natDigits n ++ ['\r'])) ++ ['\n']
      = '*' :: (natDigits n ++ '\r' :: ['\n']) := by simp
  rw [ht]
  have htw : List.takeWhile (fun ch => ch != '\r') (natDigits n ++ '\r' :: ['\n'])
      = natDigits n := takeWhile_append_cr _ _ (cr_not_mem_natDigits n)
  simp [htw, parseUsize_natDigits n hn]

theorem mem_split_first {l : List Char} (h : '\n' ∈ l) :
    ∃ p1 p2, l = p1 ++ '\n' :: p2 ∧ '\n' ∉ p1 := by
  induction l with
  | nil => simp at h
  | cons c t ih =>
    by_cases hc : c = '\n'
    · exact ⟨[], t, by rw [hc]; rfl, by simp⟩
    · have ht : '\n' ∈ t := by
        rcases List.mem_cons.mp h with h1 | h2
        · exact absurd h1.symm hc
        · exact h2
      obtain ⟨p1, p2, he, hn1⟩ := ih ht
      refine ⟨c :: p1, p2, by rw [he]; simp, ?_⟩
      intro hm
      rcases List.mem_cons.mp hm with h1 | h2
      · exact hc h1.symm
      · exact hn1 h2

/-! ### The decoder never returns a payload with trailing whitespace -/

theorem parseLine_frame_noTrailWs (input : List Char) :
    ∀ {dt rest}, parseLine input = .frame dt rest → NoTrailWs dt := by
  intro dt rest
  simp only [parseLine]
  split
  · intro h; exact absurd h (by simp)
  · split
    · intro h
      cases h
      exact NoTrailWs.simple _ (fun c2 hc2 => trimEnd_getLast hc2)
    · split
      · intro h; cases h; exact NoTrailWs.simpleErr _
      · split
        · split
          · intro h; cases h; exact NoTrailWs.int _
          · intro h; exact absurd h (by simp)
        · split
          · split
            · intro h; exact absurd h (by simp)
            · split
              · intro h; cases h
                exact NoTrailWs.bulk _ (fun c2 hc2 => trimEnd_getLast hc2)
              · intro h; exact absurd h (by simp)
          · split
            · split
              · intro h; exact absurd h (by simp)
              · split
                · intro h; exact absurd h (by simp)
                · intro h; cases h
                  exact NoTrailWs.arr [] (by simp)
            · intro h; exact absurd h (by simp)

theorem parseLoopF_noTrailWs : ∀ (fuel : Nat) (input : List Char)
    (cur : Option (List DataType × Nat)) (dt : DataType) (rest : List Char),
    (∀ arr n, cur = some (arr, n) → ∀ d ∈ arr, NoTrailWs d) →
    parseLoopF fuel input cur = .ok dt rest → NoTrailWs dt := by
  intro fuel
  induction fuel with
  | zero =>
    intro input cur dt rest _ h
    exact absurd h (by simp [parseLoopF])
  | succ f ih =>
    intro input cur dt rest hcur h
    rw [parseLoopF] at h
    cases hline : parseLine input with
    | err => rw [hline] at h; exact absurd h (by simp)
    | fatal => rw [hline] at h; exact absurd h (by simp)
    | startArray n rest2 =>
      rw [hline] at h
      have h2 : parseLoopF f rest2 (some ([], n)) = .ok dt rest := h
      refine ih rest2 (some ([], n)) dt rest ?_ h2
      rintro arr m hm d hd
      cases hm
      simp at hd
    | frame dt2 rest2 =>
      rw [hline] at h
      cases hcur2 : cur with
      | none =>
        rw [hcur2] at h
        have h2 : ParseResult.ok dt2 rest2 = ParseResult.ok dt rest := h
        cases h2
        exact parseLine_frame_noTrailWs input hline
      | some p =>
        obtain ⟨arr, n⟩ := p
        rw [hcur2] at h
        have h2 : (if (arr ++ [dt2]).length = n
            then ParseResult.ok (.Array (arr ++ [dt2])) rest2
            else parseLoopF f rest2 (some (arr ++ [dt2], n))) = .ok dt rest := h
        by_cases hlen : (arr ++ [dt2]).length = n
        · rw [if_pos hlen] at h2
          cases h2
          refine NoTrailWs.arr _ ?_
          intro d hd
          rcases List.mem_append.mp hd with h3 | h4
          · exact hcur arr n hcur2 d h3
          · have h5 : d = dt2 := by simpa using h4
            rw [h5]
            exact parseLine_frame_noTrailWs input hline
        · rw [if_neg hlen] at h2
          refine ih rest2 (some (arr ++ [dt2], n)) dt rest ?_ h2
          rintro arr2 m hm d hd
          cases hm
          rcases List.mem_append.mp hd with h3 | h4
          · exact hcur arr n hcur2 d h3
          · have h5 : d = dt2 := by simpa using h4
            rw [h5]
            exact parseLine_frame_noTrailWs input hline

/-! ### Decoding a sequence of encoded bulk strings inside an array -/

theorem send_bulk_string_length_pos (s : List Char) : 0 < (send_bulk_string s).length := by
  simp [send_bulk_string]

theorem parseLoopF_bulks : ∀ (elems : List (List Char)) (acc : List DataType)
    (n fuel : Nat),
    (∀ s ∈ elems, '\n' ∉ s ∧ trimEnd s = s ∧ utf8Len s < 2 ^ 64) →
    acc.length + elems.length = n →
    elems ≠ [] →
    ((elems.map send_bulk_string).flatten).length < fuel →
    parseLoopF fuel ((elems.map send_bulk_string).flatten) (some (acc, n)) =
      .ok (.Array (acc ++ elems.map DataType.BulkString)) [] := by
  intro elems
  induction elems with
  | nil => intro acc n fuel _ _ hne _; exact absurd rfl hne
  | cons s tl ih =>
    intro acc n fuel hgood hlen _ hfuel
    obtain ⟨hs1, hs2, hs3⟩ := hgood s (List.mem_cons_self s tl)
    have hflat : (((s :: tl).map send_bulk_string).flatten)
        = send_bulk_string s ++ ((tl.map send_bulk_string).flatten) := by simp
    cases fuel with
    | zero => exact absurd hfuel (Nat.not_lt_zero _)
    | succ f =>
      have hline : parseLine (send_bulk_string s ++ ((tl.map send_bulk_string).flatten))
          = .frame (.BulkString s) ((tl.map send_bulk_string).flatten) := by
        have hb := parseLine_bulk (utf8Len s) s ((tl.map send_bulk_string).flatten) hs3 hs1
        rw [hs2, if_pos rfl] at hb
        have hshape : send_bulk_string s ++ ((tl.map send_bulk_string).flatten)
            = '$' :: (natDigits (utf8Len s) ++ ['\r', '\n']
              ++ (s ++ ['\r', '\n'] ++ ((tl.map send_bulk_string).flatten))) := by
          simp [send_bulk_string]
        rw [hshape, hb]
      rw [hflat, parseLoopF, hline]
      cases tl with
      | nil =>
        have hlen2 : (acc ++ [DataType.BulkString s]).length = n := by
          simp at hlen ⊢; omega
        show (if (acc ++ [DataType.BulkString s]).length = n
            then ParseResult.ok (.Array (acc ++ [DataType.BulkString s]))
              ((([] : List (List Char)).map send_bulk_string).flatten)
            else parseLoopF f ((([] : List (List Char)).map send_bulk_string).flatten)
              (some (acc ++ [DataType.BulkString s], n)))
          = .ok (.Array (acc ++ [DataType.BulkString s])) []
        rw [if_pos hlen2]
        simp
      | cons s2 tl2 =>
        have hlen2 : ¬ (acc ++ [DataType.BulkString s]).length = n := by
          simp at hlen ⊢; omega
        show (if (acc ++ [DataType.BulkString s]).length = n
            then ParseResult.ok (.Array (acc ++ [DataType.BulkString s]))
              (((s2 :: tl2).map send_bulk_string).flatten)
            else parseLoopF f (((s2 :: tl2).map send_bulk_string).flatten)
              (some (acc ++ [DataType.BulkString s], n)))
          = .ok (.Array (acc ++ ((s :: s2 :: tl2).map DataType.BulkString))) []
        rw [if_neg hlen2]
        have hflen : ((((s :: s2 :: tl2).map send_bulk_string).flatten)).length
            = (send_bulk_string s).length
              + (((s2 :: tl2).map send_bulk_string).flatten).length := by
          simp
        have hp := send_bulk_string_length_pos s
        have hrec := ih (acc ++ [DataType.BulkString s]) n f
          (fun t ht => hgood t (List.mem_cons_of_mem _ ht))
          (by simp at hlen ⊢; omega)
          (by simp)
          (by omega)
        rw [hrec]
        simp

theorem sendElems_map_bulk (l : List (List Char)) :
    sendElems (l.map DataType.BulkString) = some ((l.map send_bulk_string).flatten) := by
  induction l with
  | nil => simp [sendElems]
  | cons s t ih => simp [sendElems, ih]

theorem send_array_map_bulk (l : List (List Char)) :
    send_array (l.map DataType.BulkString)
      = some ('*' :: (natDigits l.length ++ ['\r', '\n']
          ++ (l.map send_bulk_string).flatten)) := by
  rw [send_array, sendElems_map_bulk]
  simp

theorem send_bulk_string_ne_send_null (v : List Char) : send_bulk_string v ≠ send_null := by
  intro h
  rw [send_bulk_string, send_null] at h
  cases hD : natDigits (utf8Len v) with
  | nil => exact natDigits_ne_nil _ hD
  | cons c t =>
    rw [hD] at h
    simp at h
    exact (natDigits_mem _ c (hD ▸ List.mem_cons_self c t)).2.2.2.2.1 h.1

/-! ### One-frame wrappers for parse_data_type -/

theorem parse_one_frame {input : List Char} {dt : DataType} {rest : List Char}
    (h : parseLine input = .frame dt rest) : parse_data_type input = .ok dt rest := by
  rw [parse_data_type, parseLoopF, h]

theorem parse_fatal_line {input : List Char} (h : parseLine input = .fatal) :
    parse_data_type input = .fatal := by
  rw [parse_data_type, parseLoopF, h]

theorem parse_simple_roundtrip (s : List Char) (h1 : '\n' ∉ s) (h2 : trimEnd s = s) :
    parse_data_type (send_simple_string s) = .ok (.SimpleString s) [] := by
  have h := parseLine_simple s [] h1
  rw [h2, List.append_nil] at h
  exact parse_one_frame h

theorem parse_bulk_roundtrip (s : List Char) (h1 : '\n' ∉ s) (h2 : trimEnd s = s)
    (h3 : utf8Len s < 2 ^ 64) :
    parse_data_type (send_bulk_string s) = .ok (.BulkString s) [] := by
  have h := parseLine_bulk (utf8Len s) s [] h3 h1
  rw [h2, if_pos rfl] at h
  have hshape : send_bulk_string s
      = '$' :: (natDigits (utf8Len s) ++ ['\r', '\n'] ++ (s ++ ['\r', '\n'] ++ [])) := by
    simp [send_bulk_string]
  rw [hshape]
  exact parse_one_frame h

theorem parse_array_bulks (l : List (List Char))
    (hgood : ∀ s ∈ l, '\n' ∉ s ∧ trimEnd s = s ∧ utf8Len s < 2 ^ 64)
    (hlen : l.length < 2 ^ 64) :
    parse_data_type ('*' :: (natDigits l.length ++ ['\r', '\n']
        ++ (l.map send_bulk_string).flatten))
      = .ok (.Array (l.map DataType.BulkString)) [] := by
  cases l with
  | nil =>
    have h := parseLine_array_header 0 [] (by norm_num)
    rw [if_neg (by omega)] at h
    exact parse_one_frame h
  | cons s t =>
    have hn : 0 < (s :: t).length := by simp
    have hheader := parseLine_array_header (s :: t).length
      (((s :: t).map send_bulk_string).flatten) hlen
    rw [if_pos hn] at hheader
    rw [parse_data_type, parseLoopF, hheader]
    exact parseLoopF_bulks (s :: t) [] (s :: t).length _ hgood (by simp) (by simp)
      (by simp; omega)

/-! ### Claim theorems: store semantics -/

/-- Claim C1: GET returns the stored value exactly when the key is present and
the entry has no expiry or an expiry strictly after now; a present entry whose
expiry is at or before now yields the null bulk reply, as does an absent key. -/
theorem c1_get_honors_expiry (store : Store) (now : Nat) (k : List Char) :
    (∀ v, store k = some v →
      ((invoke_get [DataType.BulkString "get".data, DataType.BulkString k] now store
          = .reply (send_bulk_string v.value)) ↔
        (v.expiry = none ∨ ∃ e, v.expiry = some e ∧ now < e)) ∧
      ((∃ e, v.expiry = some e ∧ e ≤ now) →
        invoke_get [DataType.BulkString "get".data, DataType.BulkString k] now store
          = .reply send_null)) ∧
    (store k = none →
      invoke_get [DataType.BulkString "get".data, DataType.BulkString k] now store
        = .reply send_null) := by
  refine ⟨?_, ?_⟩
  · intro v hv
    refine ⟨?_, ?_⟩
    · cases hexp : v.expiry with
      | none => simp [invoke_get, hv, hexp]
      | some e =>
        by_cases he : e ≤ now
        · have heval : invoke_get [DataType.BulkString "get".data, DataType.BulkString k]
              now store = .reply send_null := by
            simp [invoke_get, hv, hexp, he]
          rw [heval]
          constructor
          · intro h
            injection h with h3
            exact absurd h3.symm (send_bulk_string_ne_send_null v.value)
          · rintro (h | ⟨e2, he2, hlt⟩)
            · exact Option.noConfusion h
            · exfalso
              injection he2 with he3
              omega
        · have heval : invoke_get [DataType.BulkString "get".data, DataType.BulkString k]
              now store = .reply (send_bulk_string v.value) := by
            simp [invoke_get, hv, hexp, he]
          rw [heval]
          constructor
          · intro _
            exact Or.inr ⟨e, rfl, by omega⟩
          · intro _
            rfl
    · rintro ⟨e, he, hle⟩
      simp [invoke_get, hv, he, hle]
  · intro h
    simp [invoke_get, h]

/-- Witness for C1 at a concrete store: the key is present with expiry 5 and
now is 7, so GET replies with the null bulk string. -/
theorem c1_witness :
    invoke_get [DataType.BulkString "get".data, DataType.BulkString "k".data] 7
      (storeInsert emptyStore "k".data ⟨"v".data, some 5⟩)
      = .reply send_null :=
  ((c1_get_honors_expiry (storeInsert emptyStore "k".data ⟨"v".data, some 5⟩) 7
      "k".data).1 ⟨"v".data, some 5⟩ (by simp [storeInsert])).2 ⟨5, rfl, by omega⟩

/-- Claim C5: SET with a PX expiry followed by an unconditional SET of the
same key leaves an entry with no expiry, and any later GET (at any time)
returns the second value. -/
theorem c5_unconditional_set_clears_expiry (store : Store) (k v1 v2 : List Char)
    (ms now1 now2 now3 : Nat) (hms : ms < 2 ^ 64) :
    ∃ store1 store2,
      invoke_set [DataType.BulkString "set".data, DataType.BulkString k,
          DataType.BulkString v1, DataType.BulkString "px".data,
          DataType.BulkString (natDigits ms)] now1 store
        = some (store1, send_simple_string "OK".data) ∧
      invoke_set [DataType.BulkString "set".data, DataType.BulkString k,
          DataType.BulkString v2] now2 store1
        = some (store2, send_simple_string "OK".data) ∧
      store2 k = some ⟨v2, none⟩ ∧
      invoke_get [DataType.BulkString "get".data, DataType.BulkString k] now3 store2
        = .reply (send_bulk_string v2) := by
  refine ⟨storeInsert store k ⟨v1, some (now1 + ms)⟩,
    storeInsert (storeInsert store k ⟨v1, some (now1 + ms)⟩) k ⟨v2, none⟩,
    ?_, ?_, ?_, ?_⟩
  · simp [invoke_set, parseUsize_natDigits ms hms]
  · simp [invoke_set]
  · simp [storeInsert]
  · simp [invoke_get, storeInsert]

/-- Witness for C5 at concrete values: expiry 10ms at time 0, overwrite at
time 5, read at time 100. -/
theorem c5_witness :
    ∃ store1 store2,
      invoke_set [DataType.BulkString "set".data, DataType.BulkString "k".data,
          DataType.BulkString "a".data, DataType.BulkString "px".data,
          DataType.BulkString (natDigits 10)] 0 emptyStore
        = some (store1, send_simple_string "OK".data) ∧
      invoke_set [DataType.BulkString "set".data, DataType.BulkString "k".data,
          DataType.BulkString "b".data] 5 store1
        = some (store2, send_simple_string "OK".data) ∧
      store2 "k".data = some ⟨"b".data, none⟩ ∧
      invoke_get [DataType.BulkString "get".data, DataType.BulkString "k".data] 100 store2
        = .reply (send_bulk_string "b".data) :=
  c5_unconditional_set_clears_expiry emptyStore "k".data "a".data "b".data
    10 0 5 100 (by norm_num)

/-- Claim C9: a SET whose third argument is a bulk string other than the
exact lowercase token px (for example PX) silently ignores the extra
arguments, stores the entry with no expiry, and still replies OK. -/
theorem c9_set_ignores_non_px (store : Store) (now : Nat) (k v arg : List Char)
    (rest : List DataType) (h : arg ≠ "px".data) :
    invoke_set (DataType.BulkString "set".data :: DataType.BulkString k ::
        DataType.BulkString v :: DataType.BulkString arg :: rest) now store
      = some (storeInsert store k ⟨v, none⟩, send_simple_string "OK".data) := by
  simp [invoke_set, h]

/-- Witness for C9: SET k v PX 100 with uppercase PX stores without expiry
and replies OK. -/
theorem c9_witness :
    invoke_set (DataType.BulkString "set".data :: DataType.BulkString "k".data ::
        DataType.BulkString "v".data :: DataType.BulkString "PX".data ::
        [DataType.BulkString "100".data]) 0 emptyStore
      = some (storeInsert emptyStore "k".data ⟨"v".data, none⟩,
          send_simple_string "OK".data) :=
  c9_set_ignores_non_px emptyStore 0 "k".data "v".data "PX".data
    [DataType.BulkString "100".data] (by decide)

/-! ### Claim theorems: command dispatch -/

/-- Counterexample for C4 as stated: the uppercase spelling PING is not
dispatched like the lowercase ping; it hits the unknown-command bail while
ping replies PONG. -/
theorem c4_counterexample :
    dispatch_frame (.Array [DataType.BulkString "PING".data]) 0 emptyStore defaultConfig
      = .err ∧
    dispatch_frame (.Array [DataType.BulkString "ping".data]) 0 emptyStore defaultConfig
      = .reply (send_simple_string "PONG".data) emptyStore := by
  constructor <;> rfl

/-- Claim C4 (amended): dispatch matches the command name case-sensitively
against the exact lowercase literals; the lowercase spelling ping replies
PONG while any name differing from all five lowercase literals (including any
other casing of a supported name) is a connection-fatal unknown-command
error. -/
theorem c4_dispatch_case_sensitive (now : Nat) (store : Store) (config : Config)
    (rest : List DataType) (cmd : List Char)
    (h1 : cmd ≠ "echo".data) (h2 : cmd ≠ "ping".data) (h3 : cmd ≠ "set".data)
    (h4 : cmd ≠ "get".data) (h5 : cmd ≠ "info".data) :
    dispatch_frame (.Array (DataType.BulkString cmd :: rest)) now store config = .err ∧
    dispatch_frame (.Array (DataType.BulkString "ping".data :: rest)) now store config
      = .reply (send_simple_string "PONG".data) store := by
  constructor
  · simp [dispatch_frame, h1, h2, h3, h4, h5]
  · rfl

/-- Witness for C4 at the concrete casing PING. -/
theorem c4_witness :
    dispatch_frame (.Array (DataType.BulkString "PING".data :: [])) 0 emptyStore
      defaultConfig = .err ∧
    dispatch_frame (.Array (DataType.BulkString "ping".data :: [])) 0 emptyStore
      defaultConfig = .reply (send_simple_string "PONG".data) emptyStore :=
  c4_dispatch_case_sensitive 0 emptyStore defaultConfig [] "PING".data
    (by decide) (by decide) (by decide) (by decide) (by decide)

/-- Counterexample for C7 as stated: a REPLCONF command array is dispatched
to the unknown-command bail (connection-fatal error), not to a SimpleString
OK reply. -/
theorem c7_counterexample :
    dispatch_frame (.Array [DataType.BulkString "REPLCONF".data,
        DataType.BulkString "listening-port".data, DataType.BulkString "6380".data])
      0 emptyStore defaultConfig = .err ∧
    CommandResult.err ≠ CommandResult.reply (send_simple_string "OK".data) emptyStore := by
  refine ⟨rfl, ?_⟩
  intro h
  exact CommandResult.noConfusion h

/-- Claim C7 (amended): the dispatcher has no REPLCONF arm; a command array
naming REPLCONF, in either casing, with any arguments, is a connection-fatal
unknown-command error and no OK reply is produced. -/
theorem c7_replconf_not_dispatched (now : Nat) (store : Store) (config : Config)
    (rest : List DataType) :
    dispatch_frame (.Array (DataType.BulkString "REPLCONF".data :: rest)) now store
      config = .err ∧
    dispatch_frame (.Array (DataType.BulkString "replconf".data :: rest)) now store
      config = .err := by
  constructor <;> rfl

/-! ### Claim theorems: decoder behavior -/

/-- Counterexample for C6 as stated: decoding the bytes of a null bulk string
header is a fatal abort (the unsigned length parse unwrap fails on -1), not a
successful decode of an absent value. -/
theorem c6_counterexample :
    parse_data_type "$-1\r\n".data = .fatal ∧
    ∀ dt rest, parse_data_type "$-1\r\n".data ≠ .ok dt rest := by
  refine ⟨rfl, ?_⟩
  intro dt rest h
  rw [show parse_data_type "$-1\r\n".data = ParseResult.fatal from rfl] at h
  exact ParseResult.noConfusion h

/-- Claim C6 (amended): decoding a stream beginning with the null bulk string
header aborts fatally whatever follows; there is no null short-circuit and no
absent value is produced (the frame type has no null variant). -/
theorem c6_negative_length_is_fatal (rest : List Char) :
    parse_data_type ("$-1\r\n".data ++ rest) = .fatal := rfl

/-- Counterexample for C3 as stated: a bulk string declaring length 5 with a
3-byte payload aborts with a panic (assert failure), which is not the
recoverable decode error the claim requires. -/
theorem c3_counterexample :
    parse_data_type "$5\r\nabc\r\n".data = .fatal ∧
    parse_data_type "$5\r\nabc\r\n".data ≠ .err := by
  refine ⟨rfl, ?_⟩
  intro h
  rw [show parse_data_type "$5\r\nabc\r\n".data = ParseResult.fatal from rfl] at h
  exact ParseResult.noConfusion h

/-- Claim C3 (amended): when the declared length differs from the payload
length after trailing-whitespace trimming, decoding aborts with a panic (the
assert), never a recoverable error value; when the trimmed length matches,
the trimmed payload is silently accepted, so wire extra trailing whitespace
is silently dropped rather than reported. -/
theorem c3_bulk_length_mismatch (n : Nat) (payload rest : List Char)
    (hn : n < 2 ^ 64) (hp : '\n' ∉ payload) :
    (utf8Len (trimEnd payload) ≠ n →
      parse_data_type ('$' :: (natDigits n ++ ['\r', '\n']
          ++ (payload ++ ['\r', '\n'] ++ rest))) = .fatal) ∧
    (utf8Len (trimEnd payload) = n →
      parse_data_type ('$' :: (natDigits n ++ ['\r', '\n']
          ++ (payload ++ ['\r', '\n'] ++ rest)))
        = .ok (.BulkString (trimEnd payload)) rest) := by
  have hb := parseLine_bulk n payload rest hn hp
  constructor
  · intro hne
    rw [if_neg hne] at hb
    exact parse_fatal_line hb
  · intro heq
    rw [if_pos heq] at hb
    exact parse_one_frame hb

/-- Witness for C3: declared length 5 with payload abc is a fatal abort;
declared length 3 with payload abc followed by a space is silently accepted
as the truncated abc. -/
theorem c3_witness :
    parse_data_type ('$' :: (natDigits 5 ++ ['\r', '\n']
        ++ ("abc".data ++ ['\r', '\n'] ++ []))) = .fatal ∧
    parse_data_type ('$' :: (natDigits 3 ++ ['\r', '\n']
        ++ ("abc ".data ++ ['\r', '\n'] ++ [])))
      = .ok (.BulkString (trimEnd "abc ".data)) [] :=
  ⟨(c3_bulk_length_mismatch 5 "abc".data [] (by norm_num) (by decide)).1 (by decide),
   (c3_bulk_length_mismatch 3 "abc ".data [] (by norm_num) (by decide)).2 (by decide)⟩

/-- Counterexample for C2 as stated: the bulk string with payload a-space
encodes to wire bytes whose decoding is a fatal abort (the trailing space is
trimmed and the length assert fails), so the round trip does not return the
frame. -/
theorem c2_counterexample :
    parse_data_type (send_bulk_string ['a', ' ']) = .fatal ∧
    ∀ rest, parse_data_type (send_bulk_string ['a', ' '])
      ≠ .ok (.BulkString ['a', ' ']) rest := by
  refine ⟨rfl, ?_⟩
  intro rest h
  rw [show parse_data_type (send_bulk_string ['a', ' ']) = ParseResult.fatal from rfl] at h
  exact ParseResult.noConfusion h

/-- Claim C2 (amended): encode-then-decode returns the original frame exactly
for the shapes the encoder supports and the decoder preserves: simple strings
and bulk strings whose text contains no newline and no trailing whitespace
(bulk strings with byte length below 2^64), and arrays of such bulk strings;
integers and nested arrays have no encoder (send_array rejects them), and the
frame type has no null variant. -/
theorem c2_roundtrip_supported :
    (∀ s, '\n' ∉ s → trimEnd s = s →
      parse_data_type (send_simple_string s) = .ok (.SimpleString s) []) ∧
    (∀ s, '\n' ∉ s → trimEnd s = s → utf8Len s < 2 ^ 64 →
      parse_data_type (send_bulk_string s) = .ok (.BulkString s) []) ∧
    (∀ l : List (List Char),
      (∀ s ∈ l, '\n' ∉ s ∧ trimEnd s = s ∧ utf8Len s < 2 ^ 64) → l.length < 2 ^ 64 →
      ∃ bytes, send_array (l.map DataType.BulkString) = some bytes ∧
        parse_data_type bytes = .ok (.Array (l.map DataType.BulkString)) []) ∧
    (send_array [DataType.Integer 0] = none ∧ send_array [DataType.Array []] = none) := by
  refine ⟨parse_simple_roundtrip, parse_bulk_roundtrip, ?_, ⟨rfl, rfl⟩⟩
  intro l hgood hlen
  exact ⟨_, send_array_map_bulk l, parse_array_bulks l hgood hlen⟩

/-- Witness for C2: round trips of the bulk string hey and of the two-element
array foo bar. -/
theorem c2_witness :
    parse_data_type (send_bulk_string "hey".data) = .ok (.BulkString "hey".data) [] ∧
    (∃ bytes, send_array (["foo".data, "bar".data].map DataType.BulkString) = some bytes ∧
      parse_data_type bytes
        = .ok (.Array (["foo".data, "bar".data].map DataType.BulkString)) []) :=
  ⟨c2_roundtrip_supported.2.1 "hey".data (by decide) (by decide) (by decide),
   c2_roundtrip_supported.2.2.1 ["foo".data, "bar".data] (by decide) (by norm_num)⟩

/-- Claim C10: decoding trims trailing whitespace before the length check, so
no decoded simple-string or bulk-string payload ends in a whitespace
character (recursively through arrays), and every wire-correct bulk string
whose payload ends in space, tab, CR or LF fails the length assertion as a
fatal abort rather than a recoverable decode error. -/
theorem c10_trim_semantics :
    (∀ input dt rest, parse_data_type input = .ok dt rest → NoTrailWs dt) ∧
    (∀ payload c rest, payload.getLast? = some c →
      (c = ' ' ∨ c = '\t' ∨ c = '\r' ∨ c = '\n') →
      utf8Len payload < 2 ^ 64 →
      parse_data_type ('$' :: (natDigits (utf8Len payload) ++ ['\r', '\n']
          ++ (payload ++ ['\r', '\n'] ++ rest))) = .fatal) := by
  constructor
  · intro input dt rest h
    exact parseLoopF_noTrailWs (input.length + 1) input none dt rest (by simp) h
  · intro payload c rest hlast hws hlen
    have hwsb : isRustWs c = true := by
      rcases hws with h | h | h | h <;> rw [h] <;> decide
    apply parse_fatal_line
    by_cases hnl : '\n' ∈ payload
    · obtain ⟨p1, p2, hsplit, hp1⟩ := mem_split_first hnl
      have hform : payload ++ ['\r', '\n'] ++ rest
          = p1 ++ '\n' :: (p2 ++ ['\r', '\n'] ++ rest) := by rw [hsplit]; simp
      rw [hform]
      have hb := parseLine_bulk_any (utf8Len payload)
        (p1 ++ '\n' :: (p2 ++ ['\r', '\n'] ++ rest)) hlen
      rw [readLine_split _ _ hp1] at hb
      dsimp only at hb
      have ht : trimEnd (p1 ++ ['\n']) = trimEnd p1 :=
        trimEnd_append_ws _ _ (by decide)
      rw [ht] at hb
      have hcount : utf8Len payload = utf8Len p1 + (charUtf8Size '\n' + utf8Len p2) := by
        rw [hsplit, utf8Len_append, utf8Len_cons]
      have h1 := utf8Len_trimEnd_le p1
      have h2 : charUtf8Size '\n' = 1 := rfl
      rw [if_neg (by omega)] at hb
      exact hb
    · have hb2 := parseLine_bulk (utf8Len payload) payload rest hlen hnl
      have hlt := utf8Len_trimEnd_lt hlast hwsb
      rw [if_neg (by omega)] at hb2
      exact hb2

/-- Witness for C10: the decoded simple string hi has no trailing whitespace,
and the wire-correct bulk string with payload ab-space aborts fatally. -/
theorem c10_witness :
    NoTrailWs (DataType.SimpleString "hi".data) ∧
    parse_data_type ('$' :: (natDigits (utf8Len "ab ".data) ++ ['\r', '\n']
        ++ ("ab ".data ++ ['\r', '\n'] ++ []))) = .fatal :=
  ⟨c10_trim_semantics.1 "+hi\r\n".data (DataType.SimpleString "hi".data) [] rfl,
   c10_trim_semantics.2 "ab ".data ' ' [] (by decide) (Or.inl rfl) (by decide)⟩

theorem send_array_ping : send_array [DataType.BulkString "ping".data] = some hs_req1 := rfl

theorem send_array_capa : send_array [DataType.BulkString "REPLCONF".data,
    DataType.BulkString "capa".data, DataType.BulkString "psync2".data] = some hs_req3 := rfl

theorem send_array_psync : send_array [DataType.BulkString "PSYNC".data,
    DataType.BulkString "?".data, DataType.BulkString "-1".data] = some hs_req4 := rfl

theorem send_array_replconf_port (port : List Char) :
    send_array [DataType.BulkString "REPLCONF".data,
      DataType.BulkString "listening-port".data, DataType.BulkString port]
      = some (hs_req2 port) := by
  have h := send_array_map_bulk ["REPLCONF".data, "listening-port".data, port]
  simp only [List.map_cons, List.map_nil] at h
  rw [h]
  simp only [List.flatten_cons, List.flatten_nil, List.append_nil]
  rfl

/-- Claim C8 (amended): the handshake sends at most the four requests PING,
REPLCONF listening-port, REPLCONF capa psync2 and PSYNC, in that order, each
only after the previous replies checked out; it returns normally exactly when
the first three replies decode to the simple strings PONG, OK, OK (aborting
before later requests on any mismatch), and it sends PSYNC and returns
without reading or checking any FULLRESYNC reply. -/
theorem c8_handshake_steps (input port : List Char) :
    ((master_handshake input port).2 = .ok ↔ repliesOk3 input) ∧
    ((master_handshake input port).2 = .ok →
      (master_handshake input port).1 = [hs_req1, hs_req2 port, hs_req3, hs_req4]) ∧
    ((master_handshake input port).1 = [hs_req1] ∨
     (master_handshake input port).1 = [hs_req1, hs_req2 port] ∨
     (master_handshake input port).1 = [hs_req1, hs_req2 port, hs_req3] ∨
     (master_handshake input port).1 = [hs_req1, hs_req2 port, hs_req3, hs_req4]) := by
  rw [master_handshake, send_array_ping]
  cases hp1 : parse_data_type input with
  | err => simp [repliesOk3, hp1]
  | fatal => simp [repliesOk3, hp1]
  | ok dt1 rest1 =>
    cases dt1 with
    | SimpleString s1 =>
      dsimp only
      by_cases hs1 : s1 = "PONG".data
      · subst hs1
        rw [if_pos rfl, send_array_replconf_port port]
        dsimp only
        cases hp2 : parse_data_type rest1 with
        | err => simp [repliesOk3, hp1, hp2]
        | fatal => simp [repliesOk3, hp1, hp2]
        | ok dt2 rest2 =>
          cases dt2 with
          | SimpleString s2 =>
            dsimp only
            by_cases hs2 : s2 = "OK".data
            · subst hs2
              rw [if_pos rfl, send_array_capa]
              dsimp only
              cases hp3 : parse_data_type rest2 with
              | err => simp [repliesOk3, hp1, hp2, hp3]
              | fatal => simp [repliesOk3, hp1, hp2, hp3]
              | ok dt3 rest3 =>
                cases dt3 with
                | SimpleString s3 =>
                  dsimp only
                  by_cases hs3 : s3 = "OK".data
                  · subst hs3
                    rw [if_pos rfl, send_array_psync]
                    dsimp only
                    refine ⟨?_, ?_, ?_⟩
                    · constructor
                      · intro _
                        exact ⟨rest1, rest2, rest3, hp1, hp2, hp3⟩
                      · intro _
                        rfl
                    · intro _
                      rfl
                    · exact Or.inr (Or.inr (Or.inr rfl))
                  · rw [if_neg hs3]
                    simp [repliesOk3, hp1, hp2, hp3, hs3]
                | SimpleError s3 => simp [repliesOk3, hp1, hp2, hp3]
                | Integer i3 => simp [repliesOk3, hp1, hp2, hp3]
                | BulkString s3 => simp [repliesOk3, hp1, hp2, hp3]
                | Array a3 => simp [repliesOk3, hp1, hp2, hp3]
            · rw [if_neg hs2]
              simp [repliesOk3, hp1, hp2, hs2]
          | SimpleError s2 => simp [repliesOk3, hp1, hp2]
          | Integer i2 => simp [repliesOk3, hp1, hp2]
          | BulkString s2 => simp [repliesOk3, hp1, hp2]
          | Array a2 => simp [repliesOk3, hp1, hp2]
      · rw [if_neg hs1]
        simp [repliesOk3, hp1, hs1]
    | SimpleError s1 => simp [repliesOk3, hp1]
    | Integer i1 => simp [repliesOk3, hp1]
    | BulkString s1 => simp [repliesOk3, hp1]
    | Array a1 => simp [repliesOk3, hp1]

/-- Counterexample for C8 as stated: with first three replies PONG, OK, OK
and a fourth reply that is an error (not a FULLRESYNC simple string), the
handshake still sends all four requests and returns normally, so the fourth
reply is never awaited or checked. -/
theorem c8_counterexample :
    (master_handshake "+PONG\r\n+OK\r\n+OK\r\n-ERR\r\n".data "6380".data).2
      = HsOutcome.ok ∧
    (master_handshake "+PONG\r\n+OK\r\n+OK\r\n-ERR\r\n".data "6380".data).1
      = [hs_req1, hs_req2 "6380".data, hs_req3, hs_req4] := ⟨rfl, rfl⟩

/-- Witness for C8: a reply stream with exactly PONG, OK, OK makes the
handshake succeed. -/
theorem c8_witness :
    (master_handshake "+PONG\r\n+OK\r\n+OK\r\n".data "1234".data).2 = HsOutcome.ok :=
  (c8_handshake_steps "+PONG\r\n+OK\r\n+OK\r\n".data "1234".data).1.mpr
    ⟨"+OK\r\n+OK\r\n".data, "+OK\r\n".data, [], rfl, rfl, rfl⟩
